import Mathlib

/-!
Verification of the taxbot order-aggregation program (src/main.go).

Shallow embedding conventions:
- Go float64 currency amounts are modelled as exact rationals; the spec treats
  floating-point rounding as out of scope.
- The Go map from state string to StateSummary is modelled as an association
  list with distinct keys: lookup finds the first matching key, an update
  rewrites the first matching entry in place, an insert appends at the end.
  This is extensionally the behaviour of the Go map.
- Stateful parts of main (HTTP fetches, file creation) are modelled by a World
  of oracles: a deterministic fetch function keyed by the request URL, and
  per-call success flags for os.Create.
-/

namespace Taxbot

/-- `BillTo` from src/main.go: nested shipping-address object carrying the state. -/
structure BillTo where
  state : String
deriving DecidableEq

/-- `Order` from src/main.go: one purchase record decoded from the API JSON. -/
structure Order where
  orderID : String
  email : String
  billTo : BillTo
  totalPaid : ℚ
  taxPaid : ℚ
deriving DecidableEq

/-- `OrderResponse` from src/main.go: one JSON page of orders. -/
structure OrderResponse where
  orders : List Order
  total : Int
  page : Int
  pages : Int
deriving DecidableEq

/-- `StateSummary` from src/main.go. -/
@[ext] structure StateSummary where
  numOrders : Int
  totalPaid : ℚ
  totalTaxPaid : ℚ
deriving DecidableEq

/-- The `stateResults` Go map, as an association list with distinct keys. -/
abbrev StateResults := List (String × StateSummary)

/-- Go map lookup `stateResults[state]`: first entry with the given key. -/
def findState (m : StateResults) (s : String) : Option StateSummary :=
  match m with
  | [] => none
  | (k, v) :: rest => if k = s then some v else findState rest s

/-- The `exists` branch of processOrders: increment the count and add the amounts. -/
def bumpSummary (t : StateSummary) (o : Order) : StateSummary :=
  ⟨t.numOrders + 1, t.totalPaid + o.totalPaid, t.totalTaxPaid + o.taxPaid⟩

/-- One iteration of the processOrders loop body: update the entry for the
order state in place if present, otherwise insert a fresh summary. -/
def processOrder (m : StateResults) (o : Order) : StateResults :=
  match m with
  | [] => [(o.billTo.state, ⟨1, o.totalPaid, o.taxPaid⟩)]
  | (k, v) :: rest =>
      if k = o.billTo.state then (k, bumpSummary v o) :: rest
      else (k, v) :: processOrder rest o

/-- `processOrders` from src/main.go: fold the page of orders into the map. -/
def processOrders (orders : List Order) (m : StateResults) : StateResults :=
  orders.foldl processOrder m

/-- The driver folds the pages one after another (line 90 of src/main.go). -/
def processAllPages (pages : List (List Order)) (m : StateResults) : StateResults :=
  pages.foldl (fun acc pg => processOrders pg acc) m

/-- The input orders whose state is exactly `s`. -/
def ordersWithState (orders : List Order) (s : String) : List Order :=
  orders.filter (fun o => o.billTo.state = s)

/-- The summary a list of orders should produce: its length and its sums. -/
def stateSummaryOf (l : List Order) : StateSummary :=
  ⟨l.length, (l.map Order.totalPaid).sum, (l.map Order.taxPaid).sum⟩

/-- Componentwise sum of two summaries. -/
def addSummary (a b : StateSummary) : StateSummary :=
  ⟨a.numOrders + b.numOrders, a.totalPaid + b.totalPaid, a.totalTaxPaid + b.totalTaxPaid⟩

lemma findState_processOrder (m : StateResults) (o : Order) (s : String) :
    findState (processOrder m o) s =
      if o.billTo.state = s then
        match findState m s with
        | some t => some (bumpSummary t o)
        | none => some ⟨1, o.totalPaid, o.taxPaid⟩
      else findState m s := by
  induction m with
  | nil =>
      by_cases h : o.billTo.state = s <;>
        simp [processOrder, findState, h]
  | cons kv rest ih =>
      obtain ⟨k, v⟩ := kv
      by_cases hk : k = o.billTo.state
      · by_cases hs : k = s
        · have hos : o.billTo.state = s := hk ▸ hs
          simp [processOrder, findState, hk, hs, hos]
        · have hos : ¬ o.billTo.state = s := fun h => hs (hk.trans h)
          simp [processOrder, findState, hk, hs, hos]
      · by_cases hs : k = s
        · have hos : ¬ o.billTo.state = s := fun h => hk (hs.trans h.symm)
          have hso : ¬ s = o.billTo.state := fun h => hos h.symm
          simp [processOrder, findState, hk, hs, hos, hso]
        · simp [processOrder, findState, hk, hs, ih]

lemma stateSummaryOf_nil : stateSummaryOf [] = ⟨0, 0, 0⟩ := rfl

lemma addSummary_zero (t : StateSummary) : addSummary t ⟨0, 0, 0⟩ = t := by
  ext <;> simp [addSummary]

/-- Characterisation of the aggregation fold: the entry at any key after
processing a list of orders, in terms of the entry before and the orders
carrying exactly that state. -/
lemma findState_processOrders (orders : List Order) (m : StateResults) (s : String) :
    findState (processOrders orders m) s =
      match findState m s with
      | some t => some (addSummary t (stateSummaryOf (ordersWithState orders s)))
      | none =>
          if ordersWithState orders s = [] then none
          else some (stateSummaryOf (ordersWithState orders s)) := by
  induction orders generalizing m with
  | nil =>
      cases h : findState m s <;>
        simp [processOrders, ordersWithState, h, stateSummaryOf_nil, addSummary_zero]
  | cons o os ih =>
      have hstep : processOrders (o :: os) m = processOrders os (processOrder m o) := rfl
      rw [hstep, ih (processOrder m o), findState_processOrder]
      by_cases hs : o.billTo.state = s
      · have hfilter : ordersWithState (o :: os) s = o :: ordersWithState os s := by
          simp [ordersWithState, List.filter_cons, hs]
        rw [hfilter]
        cases h : findState m s with
        | some t =>
            simp only [hs, if_pos rfl, h]
            cases hos : ordersWithState os s <;>
              · ext <;>
                  simp [addSummary, bumpSummary, stateSummaryOf, hos] <;> ring
        | none =>
            simp only [hs, if_pos rfl, h]
            cases hos : ordersWithState os s <;>
              · ext <;>
                  simp [addSummary, bumpSummary, stateSummaryOf, hos] <;> ring
      · have hfilter : ordersWithState (o :: os) s = ordersWithState os s := by
          simp [ordersWithState, List.filter_cons, hs]
        rw [hfilter]
        simp only [hs, if_neg (fun h => hs h)]
        simp

lemma findState_nil (s : String) : findState [] s = none := rfl

lemma processAllPages_eq_join (pages : List (List Order)) (m : StateResults) :
    processAllPages pages m = processOrders pages.flatten m := by
  induction pages generalizing m with
  | nil => rfl
  | cons pg rest ih =>
      simp [processAllPages, processOrders, List.foldl_append] at *
      rw [ih]

/-- Sample order used by concrete witnesses. -/
def oCA1 : Order := ⟨"1001", "a@example.com", ⟨"CA"⟩, 10, 1⟩

/-- Sample order used by concrete witnesses. -/
def oCA2 : Order := ⟨"1002", "b@example.com", ⟨"CA"⟩, 20, 2⟩

/-- Sample order used by concrete witnesses. -/
def oNY1 : Order := ⟨"1003", "c@example.com", ⟨"NY"⟩, 5, (1/2 : ℚ)⟩

/-- Sample order with an empty state string. -/
def oBlank : Order := ⟨"1004", "d@example.com", ⟨""⟩, 7, 0⟩

/-- C1: for every sequence of pages of orders folded into the state-summary
mapping by processOrders, and every state key present in the final mapping,
the stored count is the number of input orders with that state, and the
stored totals are the sums of the per-order amountPaid and taxAmount fields. -/
theorem state_counts_and_sums (pages : List (List Order)) (s : String) (t : StateSummary)
    (h : findState (processAllPages pages []) s = some t) :
    t.numOrders = ((ordersWithState pages.flatten s).length : Int) ∧
    t.totalPaid = ((ordersWithState pages.flatten s).map Order.totalPaid).sum ∧
    t.totalTaxPaid = ((ordersWithState pages.flatten s).map Order.taxPaid).sum := by
  rw [processAllPages_eq_join, findState_processOrders] at h
  simp only [findState_nil] at h
  by_cases he : ordersWithState pages.flatten s = []
  · simp [he] at h
  · simp only [he, if_neg, if_false] at h
    have ht : t = stateSummaryOf (ordersWithState pages.flatten s) := by
      cases h; rfl
    subst ht
    exact ⟨rfl, rfl, rfl⟩

/-- The summary that the C1 witness expects for key CA. -/
def wSummaryCA : StateSummary := ⟨2, 30, 3⟩

lemma findState_witness_eval :
    findState (processAllPages [[oCA1], [oCA2, oNY1]] []) "CA" = some wSummaryCA := by
  simp only [processAllPages, processOrders, List.foldl_cons, List.foldl_nil]
  norm_num [processOrder, findState, bumpSummary, oCA1, oCA2, oNY1, wSummaryCA]

theorem state_counts_and_sums_witness :
    findState (processAllPages [[oCA1], [oCA2, oNY1]] []) "CA" = some wSummaryCA ∧
    (wSummaryCA.numOrders = ((ordersWithState [[oCA1], [oCA2, oNY1]].flatten "CA").length : Int) ∧
     wSummaryCA.totalPaid = ((ordersWithState [[oCA1], [oCA2, oNY1]].flatten "CA").map Order.totalPaid).sum ∧
     wSummaryCA.totalTaxPaid = ((ordersWithState [[oCA1], [oCA2, oNY1]].flatten "CA").map Order.taxPaid).sum) :=
  ⟨findState_witness_eval,
   state_counts_and_sums [[oCA1], [oCA2, oNY1]] "CA" wSummaryCA findState_witness_eval⟩

/-- C2: the aggregation is order-independent: two permuted input sequences,
folded from the same initial mapping, give the same mapping content at every
key. -/
theorem aggregation_perm_invariant (l1 l2 : List Order) (hp : l1.Perm l2)
    (m : StateResults) (s : String) :
    findState (processOrders l1 m) s = findState (processOrders l2 m) s := by
  rw [findState_processOrders, findState_processOrders]
  have hperm : (ordersWithState l1 s).Perm (ordersWithState l2 s) := hp.filter _
  have hlen : (ordersWithState l1 s).length = (ordersWithState l2 s).length :=
    hperm.length_eq
  have hpaid : ((ordersWithState l1 s).map Order.totalPaid).sum
      = ((ordersWithState l2 s).map Order.totalPaid).sum := (hperm.map _).sum_eq
  have htax : ((ordersWithState l1 s).map Order.taxPaid).sum
      = ((ordersWithState l2 s).map Order.taxPaid).sum := (hperm.map _).sum_eq
  have hsum : stateSummaryOf (ordersWithState l1 s) = stateSummaryOf (ordersWithState l2 s) := by
    ext
    · simp [stateSummaryOf, hlen]
    · simp [stateSummaryOf, hpaid]
    · simp [stateSummaryOf, htax]
  have hnil : (ordersWithState l1 s = []) ↔ (ordersWithState l2 s = []) := by
    rw [← List.length_eq_zero, ← List.length_eq_zero, hlen]
  cases hm : findState m s with
  | some t => simp [hsum]
  | none => simp only [hsum, hnil]

theorem aggregation_perm_invariant_witness :
    ([oCA1, oNY1, oCA2].Perm [oNY1, oCA1, oCA2]) ∧
    findState (processOrders [oCA1, oNY1, oCA2] []) "CA"
      = findState (processOrders [oNY1, oCA1, oCA2] []) "CA" :=
  ⟨List.Perm.swap oNY1 oCA1 [oCA2],
   aggregation_perm_invariant [oCA1, oNY1, oCA2] [oNY1, oCA1, oCA2]
     (List.Perm.swap oNY1 oCA1 [oCA2]) [] "CA"⟩

/-- C9: an empty or blank (all-whitespace) state string is treated as its own
key: orders carrying it are neither normalized nor rejected, and the entry at
that exact string aggregates exactly the orders whose state equals it. -/
theorem blank_state_own_key (s : String) (hblank : s.data.all (fun c => c.isWhitespace) = true)
    (orders : List Order) :
    findState (processOrders orders []) s =
      (if ordersWithState orders s = [] then none
       else some (stateSummaryOf (ordersWithState orders s))) := by
  rw [findState_processOrders]
  rfl

theorem blank_state_own_key_witness :
    ("".data.all (fun c => c.isWhitespace) = true) ∧
    findState (processOrders [oBlank, oCA1, oBlank] []) ""
      = (if ordersWithState [oBlank, oCA1, oBlank] "" = [] then none
         else some (stateSummaryOf (ordersWithState [oBlank, oCA1, oBlank] ""))) :=
  ⟨by decide, blank_state_own_key "" (by decide) [oBlank, oCA1, oBlank]⟩

/-- A calendar date as produced by parsing a YYYY-MM-DD command-line flag. -/
structure GoDate where
  y : Nat
  m : Nat
  d : Nat
deriving DecidableEq

/-- Numeric value of a digit character. -/
def digitVal (c : Char) : Nat := c.toNat - 48

/-- Modelled from the spec: Go time.Parse with layout 2006-01-02 (standard
library, not part of src/). Accepts exactly a ten-character YYYY-MM-DD string
of digits and dashes, month in 1..12, day in 1..31; Go additionally rejects a
day invalid for its month, which no claim depends on. -/
def parseDate (s : String) : Option GoDate :=
  if s.data.length = 10 then
    let c := fun i => s.data.getD i ' '
    if c 4 = '-' ∧ c 7 = '-' ∧
        ([c 0, c 1, c 2, c 3, c 5, c 6, c 8, c 9].all Char.isDigit) then
      let y := 1000 * digitVal (c 0) + 100 * digitVal (c 1) + 10 * digitVal (c 2) + digitVal (c 3)
      let m := 10 * digitVal (c 5) + digitVal (c 6)
      let d := 10 * digitVal (c 8) + digitVal (c 9)
      if 1 ≤ m ∧ m ≤ 12 ∧ 1 ≤ d ∧ d ≤ 31 then some ⟨y, m, d⟩ else none
    else none
  else none

/-- The character for the last decimal digit of a number. -/
def digitChar (n : Nat) : Char := Char.ofNat (48 + n % 10)

/-- Two-digit zero-padded rendering (months, days, cents). -/
def pad2 (n : Nat) : String := String.mk [digitChar (n / 10), digitChar n]

/-- Four-digit zero-padded rendering (years). -/
def pad4 (n : Nat) : String :=
  String.mk [digitChar (n / 1000), digitChar (n / 100), digitChar (n / 10), digitChar n]

/-- The YYYY-MM-DD rendering of a date, i.e. the shape of the flag input. -/
def dateISO (d : GoDate) : String := pad4 d.y ++ "-" ++ pad2 d.m ++ "-" ++ pad2 d.d

/-- Modelled from the spec: Go fmt %s applied to a time.Time parsed from a
YYYY-MM-DD flag renders the default representation
`YYYY-MM-DD 00:00:00 +0000 UTC` (standard library, not part of src/). -/
def goTimeString (d : GoDate) : String := dateISO d ++ " 00:00:00 +0000 UTC"

/-- The page-size limit hardcoded in main (line 68 of src/main.go). -/
def limit : Int := 100

/-- The URL built by main via fmt.Sprintf (lines 71 and 83 of src/main.go):
the two dates are passed through %s, hence rendered by goTimeString. -/
def buildURL (sd ed : GoDate) (pageSize page : Int) : String :=
  "https://ssapi.shipstation.com/orders?orderDateStart=" ++ goTimeString sd
    ++ "&orderDateEnd=" ++ goTimeString ed
    ++ "&pageSize=" ++ toString pageSize
    ++ "&page=" ++ toString page

/-- The two decimal digits of a cent amount below 100. -/
def twoDigits (k : Nat) : String := String.mk [digitChar (k / 10), digitChar k]

/-- Models Go %.2f and strconv.FormatFloat(x, 'f', 2, 64): fixed-point
rendering with exactly two digits after the point. Currency is modelled as an
exact rational, so the rounding at the second decimal is the rational
round-half-up; binary floating-point rounding is out of scope. -/
def format2 (q : ℚ) : String :=
  let c : Int := round (q * 100)
  (if c < 0 then "-" else "") ++ toString (c.natAbs / 100) ++ "." ++ twoDigits (c.natAbs % 100)

/-- Header written by saveRecordsToCSV (line 114 of src/main.go). -/
def rawHeader : List String := ["Order ID", "Email", "State", "Total Paid", "Tax Paid"]

/-- One raw-order CSV row (line 119 of src/main.go). -/
def orderRow (o : Order) : List String :=
  [o.orderID, o.email, o.billTo.state, format2 o.totalPaid, format2 o.taxPaid]

/-- The rows saveRecordsToCSV writes into the freshly created file. -/
def saveRecordsRows (records : List Order) : List (List String) :=
  rawHeader :: records.map orderRow

/-- Header written by saveToCSV (line 197 of src/main.go). -/
def aggHeader : List String := ["State", "NumOrders", "TotalPaid", "TotalTaxPaid"]

/-- One aggregate CSV row (lines 205-210 of src/main.go): the count through
%d, the money totals through %.2f. -/
def summaryRow (state : String) (t : StateSummary) : List String :=
  [state, toString t.numOrders, format2 t.totalPaid, format2 t.totalTaxPaid]

/-- The rows saveToCSV writes: header then one row per state key. -/
def saveToCSVRows (m : StateResults) : List (List String) :=
  aggHeader :: m.map (fun p => summaryRow p.1 p.2)

/-- Oracles for the effectful parts of main: environment variables, flag
values, the HTTP fetch keyed by the full request URL (deterministic: one
response per URL), and os.Create success per call site (per page for the
raw file, once for the aggregate file). -/
structure World where
  env : String → String
  startFlag : String
  endFlag : String
  fetch : String → Except String OrderResponse
  rawCreateOk : Int → Bool
  aggCreateOk : Bool

/-- State carried through the page loop: content of order_records.csv
(none while the file does not exist) and the stateResults map. -/
structure LoopState where
  rawCSV : Option (List (List String))
  stateResults : StateResults

/-- Observable outcome of one program run: URLs requested in order, final
content of the two CSV files (none = file never created), the final map, and
the terminal log line of main. -/
structure RunResult where
  requests : List String
  rawCSV : Option (List (List String))
  aggCSV : Option (List (List String))
  stateResults : StateResults
  finalLog : String

/-- The page loop of main (lines 82-91 of src/main.go): per page, fetch;
on error abort; otherwise re-create order_records.csv (truncating it — the
returned error of saveRecordsToCSV is discarded on line 89) and fold the
orders into stateResults. -/
def runPages (w : World) (sd ed : GoDate) :
    List Int → LoopState → Except (String × LoopState) LoopState
  | [], st => .ok st
  | p :: rest, st =>
      match w.fetch (buildURL sd ed limit p) with
      | .error e => .error (e, st)
      | .ok resp =>
          runPages w sd ed rest
            ⟨if w.rawCreateOk p then some (saveRecordsRows resp.orders) else st.rawCSV,
             processOrders resp.orders st.stateResults⟩

/-- The URLs the loop requests: every page up to and including the first
failing fetch. -/
def requestTrace (w : World) (sd ed : GoDate) : List Int → List String
  | [] => []
  | p :: rest =>
      buildURL sd ed limit p ::
        match w.fetch (buildURL sd ed limit p) with
        | .ok _ => requestTrace w sd ed rest
        | .error _ => []

/-- Pages 1..n, the loop bound of main (line 82 of src/main.go). -/
def pageList (n : Int) : List Int := (List.range n.toNat).map (fun i => Int.ofNat (i + 1))

/-- A run that stopped before issuing any request. -/
def noRun (msg : String) : RunResult := ⟨[], none, none, [], msg⟩

/-- The driver, src/main.go lines 36-100: check credentials, parse the two
date flags, fetch page 1 to learn the page count, loop over pages 1..N
(re-fetching page 1), then write the aggregate CSV. -/
def runMain (w : World) : RunResult :=
  if w.env "SSKEY" = "" ∨ w.env "SSSECRET" = "" then
    noRun "Please set the SSKEY and SSSECRET environment variables."
  else
    match parseDate w.startFlag, parseDate w.endFlag with
    | none, _ => noRun "Error parsing start date:"
    | some _, none => noRun "Error parsing end date:"
    | some sd, some ed =>
        let url1 := buildURL sd ed limit 1
        match w.fetch url1 with
        | .error _ => ⟨[url1], none, none, [], "Error making API request:"⟩
        | .ok resp0 =>
            let ps := pageList resp0.pages
            let reqs := url1 :: requestTrace w sd ed ps
            match runPages w sd ed ps ⟨none, []⟩ with
            | .error (_, st) =>
                ⟨reqs, st.rawCSV, none, st.stateResults, "Error making API request:"⟩
            | .ok st =>
                if w.aggCreateOk then
                  ⟨reqs, st.rawCSV, some (saveToCSVRows st.stateResults), st.stateResults,
                   "State results saved to state_results.csv"⟩
                else
                  ⟨reqs, st.rawCSV, none, st.stateResults, "Error saving state results to CSV:"⟩

/-- The orders the (deterministic) API returns for a page, empty on a failed
fetch. -/
def respOrders (w : World) (sd ed : GoDate) (p : Int) : List Order :=
  match w.fetch (buildURL sd ed limit p) with
  | .ok r => r.orders
  | .error _ => []

lemma runPages_ok (w : World) (sd ed : GoDate) (ps : List Int) (st : LoopState)
    (hall : ∀ p ∈ ps, ∃ r, w.fetch (buildURL sd ed limit p) = .ok r) :
    ∃ st', runPages w sd ed ps st = .ok st' ∧
      ((∀ p ∈ ps, w.rawCreateOk p = true) →
        st'.rawCSV = (match ps.getLast? with
          | none => st.rawCSV
          | some p => some (saveRecordsRows (respOrders w sd ed p)))) := by
  induction ps generalizing st with
  | nil => exact ⟨st, rfl, fun _ => rfl⟩
  | cons p rest ih =>
      obtain ⟨r, hr⟩ := hall p (List.mem_cons_self p rest)
      have hall2 : ∀ q ∈ rest, ∃ r, w.fetch (buildURL sd ed limit q) = .ok r :=
        fun q hq => hall q (List.mem_cons_of_mem p hq)
      obtain ⟨st', hrun, hraw⟩ :=
        ih ⟨if w.rawCreateOk p then some (saveRecordsRows r.orders) else st.rawCSV,
            processOrders r.orders st.stateResults⟩ hall2
      refine ⟨st', by simp [runPages, hr, hrun], ?_⟩
      intro hcr
      have hcrp : w.rawCreateOk p = true := hcr p (List.mem_cons_self p rest)
      have hcr2 : ∀ q ∈ rest, w.rawCreateOk q = true :=
        fun q hq => hcr q (List.mem_cons_of_mem p hq)
      have hres := hraw hcr2
      cases rest with
      | nil =>
          simp only [List.getLast?_nil] at hres
          simp only [List.getLast?_singleton]
          rw [hres]
          simp [hcrp, respOrders, hr]
      | cons q t =>
          rw [List.getLast?_cons_cons]
          exact hres

lemma requestTrace_all_ok (w : World) (sd ed : GoDate) (ps : List Int)
    (hall : ∀ p ∈ ps, ∃ r, w.fetch (buildURL sd ed limit p) = .ok r) :
    requestTrace w sd ed ps = ps.map (buildURL sd ed limit) := by
  induction ps with
  | nil => rfl
  | cons p rest ih =>
      obtain ⟨r, hr⟩ := hall p (List.mem_cons_self p rest)
      have hall2 : ∀ q ∈ rest, ∃ r, w.fetch (buildURL sd ed limit q) = .ok r :=
        fun q hq => hall q (List.mem_cons_of_mem p hq)
      simp [requestTrace, hr, ih hall2]

lemma runPages_append (w : World) (sd ed : GoDate) (ps qs : List Int) (st : LoopState) :
    runPages w sd ed (ps ++ qs) st =
      match runPages w sd ed ps st with
      | .ok st' => runPages w sd ed qs st'
      | .error e => .error e := by
  induction ps generalizing st with
  | nil => simp [runPages]
  | cons p rest ih =>
      cases hf : w.fetch (buildURL sd ed limit p) with
      | error e => simp [runPages, hf]
      | ok r => simp [runPages, hf, ih]

lemma requestTrace_append_ok (w : World) (sd ed : GoDate) (ps qs : List Int)
    (hall : ∀ p ∈ ps, ∃ r, w.fetch (buildURL sd ed limit p) = .ok r) :
    requestTrace w sd ed (ps ++ qs)
      = ps.map (buildURL sd ed limit) ++ requestTrace w sd ed qs := by
  induction ps with
  | nil => rfl
  | cons p rest ih =>
      obtain ⟨r, hr⟩ := hall p (List.mem_cons_self p rest)
      have hall2 : ∀ q ∈ rest, ∃ r, w.fetch (buildURL sd ed limit q) = .ok r :=
        fun q hq => hall q (List.mem_cons_of_mem p hq)
      simp [requestTrace, hr, ih hall2]

lemma pageList_getLast (n : Int) (h : 1 ≤ n) : (pageList n).getLast? = some n := by
  have hn : n.toNat = (n.toNat - 1) + 1 := by omega
  unfold pageList
  rw [hn, List.range_succ, List.map_append]
  simp only [List.map_cons, List.map_nil, List.getLast?_concat]
  congr 1
  rw [Int.ofNat_eq_coe]
  omega

/-- C4: with SSKEY or SSSECRET empty, the run issues no HTTP request, creates
or modifies no CSV file, aggregates nothing, and exits after the single
configuration log line. -/
theorem missing_credentials_no_effects (w : World)
    (h : w.env "SSKEY" = "" ∨ w.env "SSSECRET" = "") :
    (runMain w).requests = [] ∧
    (runMain w).rawCSV = none ∧
    (runMain w).aggCSV = none ∧
    (runMain w).stateResults = [] ∧
    (runMain w).finalLog = "Please set the SSKEY and SSSECRET environment variables." := by
  have hrw : runMain w = noRun "Please set the SSKEY and SSSECRET environment variables." := by
    unfold runMain
    rw [if_pos h]
  rw [hrw]
  exact ⟨rfl, rfl, rfl, rfl, rfl⟩

/-- A world with no credentials set, used by the C4 witness. -/
def wNoCreds : World :=
  { env := fun _ => ""
    startFlag := "2024-01-02"
    endFlag := "2024-01-03"
    fetch := fun _ => .error "unreachable"
    rawCreateOk := fun _ => true
    aggCreateOk := true }

theorem missing_credentials_no_effects_witness :
    (wNoCreds.env "SSKEY" = "" ∨ wNoCreds.env "SSSECRET" = "") ∧
    ((runMain wNoCreds).requests = [] ∧
     (runMain wNoCreds).rawCSV = none ∧
     (runMain wNoCreds).aggCSV = none ∧
     (runMain wNoCreds).stateResults = [] ∧
     (runMain wNoCreds).finalLog = "Please set the SSKEY and SSSECRET environment variables.") :=
  ⟨Or.inl rfl, missing_credentials_no_effects wNoCreds (Or.inl rfl)⟩

/-- Start date used by the concrete worlds. -/
def dStart : GoDate := ⟨2024, 1, 2⟩

/-- End date used by the concrete worlds. -/
def dEnd : GoDate := ⟨2024, 1, 3⟩

/-- First page of the two-page scenario. -/
def respPage1 : OrderResponse := ⟨[oCA1], 2, 1, 2⟩

/-- Second page of the two-page scenario. -/
def respPage2 : OrderResponse := ⟨[oNY1], 2, 2, 2⟩

/-- A world whose raw-file os.Create always fails while both fetches succeed. -/
def wRawFail : World :=
  { env := fun _ => "key"
    startFlag := "2024-01-02"
    endFlag := "2024-01-03"
    fetch := fun url =>
      if url = buildURL dStart dEnd limit 1 then .ok respPage1
      else if url = buildURL dStart dEnd limit 2 then .ok respPage2
      else .error "not found"
    rawCreateOk := fun _ => false
    aggCreateOk := true }

/-- C3 counterexample: in wRawFail, saveRecordsToCSV fails on page 1 (its
os.Create fails), yet page 2 is still fetched and the aggregate CSV is still
written — the run does not abort. -/
theorem raw_write_failure_not_aborting :
    wRawFail.rawCreateOk 1 = false ∧
    buildURL dStart dEnd limit 2 ∈ (runMain wRawFail).requests ∧
    (runMain wRawFail).aggCSV.isSome = true := by
  refine ⟨rfl, ?_, ?_⟩ <;> decide

/-- C3 amended: the error returned by saveRecordsToCSV is discarded on line
89 of src/main.go, so raw-file create failures never stop the run: whenever
every fetch succeeds and the aggregate file can be created, the run visits
every page and writes the aggregate CSV, whatever the raw-create outcomes. -/
theorem raw_write_failure_ignored (w : World) (sd ed : GoDate) (resp0 : OrderResponse)
    (henv : ¬(w.env "SSKEY" = "" ∨ w.env "SSSECRET" = ""))
    (hsd : parseDate w.startFlag = some sd)
    (hed : parseDate w.endFlag = some ed)
    (h1 : w.fetch (buildURL sd ed limit 1) = .ok resp0)
    (hall : ∀ p ∈ pageList resp0.pages, ∃ r, w.fetch (buildURL sd ed limit p) = .ok r)
    (hagg : w.aggCreateOk = true) :
    (runMain w).requests
      = buildURL sd ed limit 1 :: (pageList resp0.pages).map (buildURL sd ed limit) ∧
    (runMain w).aggCSV.isSome = true ∧
    (runMain w).finalLog = "State results saved to state_results.csv" := by
  obtain ⟨st', hrun, -⟩ := runPages_ok w sd ed (pageList resp0.pages) ⟨none, []⟩ hall
  have htrace := requestTrace_all_ok w sd ed (pageList resp0.pages) hall
  unfold runMain
  rw [if_neg henv, hsd, hed]
  simp only [h1, hrun, hagg, htrace, if_true]
  exact ⟨trivial, rfl, trivial⟩

theorem raw_write_failure_ignored_witness :
    (¬(wRawFail.env "SSKEY" = "" ∨ wRawFail.env "SSSECRET" = "")) ∧
    ((runMain wRawFail).requests
        = buildURL dStart dEnd limit 1 :: (pageList respPage1.pages).map (buildURL dStart dEnd limit) ∧
     (runMain wRawFail).aggCSV.isSome = true ∧
     (runMain wRawFail).finalLog = "State results saved to state_results.csv") :=
  ⟨by decide,
   raw_write_failure_ignored wRawFail dStart dEnd respPage1 (by decide) (by decide) (by decide)
     rfl
     (by
       intro p hp
       have hps : pageList respPage1.pages = [1, 2] := by decide
       rw [hps] at hp
       simp only [List.mem_cons, List.not_mem_nil, or_false] at hp
       rcases hp with h1 | h2
       · subst h1; exact ⟨respPage1, rfl⟩
       · subst h2; exact ⟨respPage2, rfl⟩)
     rfl⟩

/-- C5: saveRecordsToCSV re-creates (truncates) order_records.csv on every
page, so a completed run over several pages leaves only the header and the
final page rows in the file. -/
theorem raw_csv_last_page_only (w : World) (sd ed : GoDate) (resp0 rlast : OrderResponse)
    (henv : ¬(w.env "SSKEY" = "" ∨ w.env "SSSECRET" = ""))
    (hsd : parseDate w.startFlag = some sd)
    (hed : parseDate w.endFlag = some ed)
    (h1 : w.fetch (buildURL sd ed limit 1) = .ok resp0)
    (hpages : 2 ≤ resp0.pages)
    (hall : ∀ p ∈ pageList resp0.pages, ∃ r, w.fetch (buildURL sd ed limit p) = .ok r)
    (hcr : ∀ p ∈ pageList resp0.pages, w.rawCreateOk p = true)
    (hagg : w.aggCreateOk = true)
    (hlastf : w.fetch (buildURL sd ed limit resp0.pages) = .ok rlast) :
    (runMain w).rawCSV = some (rawHeader :: rlast.orders.map orderRow) := by
  obtain ⟨st', hrun, hraw⟩ := runPages_ok w sd ed (pageList resp0.pages) ⟨none, []⟩ hall
  have hlast : (pageList resp0.pages).getLast? = some resp0.pages :=
    pageList_getLast _ (le_trans (by norm_num) hpages)
  have hrawv : st'.rawCSV = some (saveRecordsRows (respOrders w sd ed resp0.pages)) := by
    have h2 := hraw hcr
    rw [hlast] at h2
    exact h2
  have hresp : respOrders w sd ed resp0.pages = rlast.orders := by
    unfold respOrders
    rw [hlastf]
  unfold runMain
  rw [if_neg henv, hsd, hed]
  simp only [h1, hrun, hagg, if_true]
  rw [hrawv, hresp]
  rfl

/-- A two-page world where every fetch and every file create succeeds. -/
def wTwoPages : World :=
  { env := fun _ => "key"
    startFlag := "2024-01-02"
    endFlag := "2024-01-03"
    fetch := fun url =>
      if url = buildURL dStart dEnd limit 1 then .ok respPage1
      else if url = buildURL dStart dEnd limit 2 then .ok respPage2
      else .error "not found"
    rawCreateOk := fun _ => true
    aggCreateOk := true }

theorem raw_csv_last_page_only_witness :
    (2 ≤ respPage1.pages) ∧
    (runMain wTwoPages).rawCSV = some (rawHeader :: respPage2.orders.map orderRow) :=
  ⟨by decide,
   raw_csv_last_page_only wTwoPages dStart dEnd respPage1 respPage2 (by decide) (by decide)
     (by decide) rfl (by decide)
     (by
       intro p hp
       have hps : pageList respPage1.pages = [1, 2] := by decide
       rw [hps] at hp
       simp only [List.mem_cons, List.not_mem_nil, or_false] at hp
       rcases hp with h1 | h2
       · subst h1; exact ⟨respPage1, rfl⟩
       · subst h2; exact ⟨respPage2, rfl⟩)
     (fun p _ => rfl) rfl rfl⟩

/-- C6: a fetch failure on a later page aborts the run with the API error
log line and no aggregate CSV, while the raw CSV keeps the rows written for
the last page fetched before the failure (no cleanup or rollback). -/
theorem fetch_failure_aborts (w : World) (sd ed : GoDate) (resp0 rp : OrderResponse)
    (ps qs : List Int) (k lastp : Int) (e : String)
    (henv : ¬(w.env "SSKEY" = "" ∨ w.env "SSSECRET" = ""))
    (hsd : parseDate w.startFlag = some sd)
    (hed : parseDate w.endFlag = some ed)
    (h1 : w.fetch (buildURL sd ed limit 1) = .ok resp0)
    (hsplit : pageList resp0.pages = ps ++ k :: qs)
    (hok : ∀ p ∈ ps, ∃ r, w.fetch (buildURL sd ed limit p) = .ok r)
    (hcr : ∀ p ∈ ps, w.rawCreateOk p = true)
    (hfail : w.fetch (buildURL sd ed limit k) = .error e)
    (hlast : ps.getLast? = some lastp)
    (hrp : w.fetch (buildURL sd ed limit lastp) = .ok rp) :
    (runMain w).aggCSV = none ∧
    (runMain w).finalLog = "Error making API request:" ∧
    (runMain w).rawCSV = some (saveRecordsRows rp.orders) ∧
    (runMain w).requests
      = buildURL sd ed limit 1 :: (ps.map (buildURL sd ed limit) ++ [buildURL sd ed limit k]) := by
  obtain ⟨stp, hrunp, hrawp⟩ := runPages_ok w sd ed ps ⟨none, []⟩ hok
  have hrunfull : runPages w sd ed (pageList resp0.pages) ⟨none, []⟩ = .error (e, stp) := by
    rw [hsplit, runPages_append, hrunp]
    simp [runPages, hfail]
  have htrace : requestTrace w sd ed (pageList resp0.pages)
      = ps.map (buildURL sd ed limit) ++ [buildURL sd ed limit k] := by
    rw [hsplit, requestTrace_append_ok w sd ed ps (k :: qs) hok]
    simp [requestTrace, hfail]
  have hrawv : stp.rawCSV = some (saveRecordsRows (respOrders w sd ed lastp)) := by
    have h2 := hrawp hcr
    rw [hlast] at h2
    exact h2
  have hresp : respOrders w sd ed lastp = rp.orders := by
    unfold respOrders
    rw [hrp]
  unfold runMain
  rw [if_neg henv, hsd, hed]
  simp only [h1, hrunfull, htrace]
  rw [hresp] at hrawv
  exact ⟨trivial, trivial, hrawv, trivial⟩

/-- First page of the five-page scenario. -/
def respP1of5 : OrderResponse := ⟨[oCA1], 9, 1, 5⟩

/-- Second page of the five-page scenario. -/
def respP2of5 : OrderResponse := ⟨[oNY1], 9, 2, 5⟩

/-- A five-page world whose page-3 fetch fails. -/
def wMidFail : World :=
  { env := fun _ => "key"
    startFlag := "2024-01-02"
    endFlag := "2024-01-03"
    fetch := fun url =>
      if url = buildURL dStart dEnd limit 1 then .ok respP1of5
      else if url = buildURL dStart dEnd limit 2 then .ok respP2of5
      else if url = buildURL dStart dEnd limit 3 then .error "boom"
      else .error "not found"
    rawCreateOk := fun _ => true
    aggCreateOk := true }

theorem fetch_failure_aborts_witness :
    (pageList respP1of5.pages = [1, 2] ++ 3 :: [4, 5]) ∧
    (wMidFail.fetch (buildURL dStart dEnd limit 3) = .error "boom") ∧
    ((runMain wMidFail).aggCSV = none ∧
     (runMain wMidFail).finalLog = "Error making API request:" ∧
     (runMain wMidFail).rawCSV = some (saveRecordsRows respP2of5.orders) ∧
     (runMain wMidFail).requests
       = buildURL dStart dEnd limit 1
           :: ([1, 2].map (buildURL dStart dEnd limit) ++ [buildURL dStart dEnd limit 3])) :=
  ⟨by decide, rfl,
   fetch_failure_aborts wMidFail dStart dEnd respP1of5 respP2of5 [1, 2] [4, 5] 3 2 "boom"
     (by decide) (by decide) (by decide) rfl (by decide)
     (by
       intro p hp
       simp only [List.mem_cons, List.not_mem_nil, or_false] at hp
       rcases hp with h1 | h2
       · subst h1; exact ⟨respP1of5, rfl⟩
       · subst h2; exact ⟨respP2of5, rfl⟩)
     (fun p _ => rfl) rfl rfl rfl⟩

/-- Pages 2..n, the loop of the optimized scheme. -/
def pageListFrom2 (n : Int) : List Int :=
  (List.range (n.toNat - 1)).map (fun i => Int.ofNat (i + 2))

/-- Modelled from the spec: the optimized driver that fetches page 1 once,
uses its data directly (raw-CSV write and aggregation, exactly the loop body
of main applied to the first response), records the page count, then loops
over pages 2..N. Everything else matches runMain. -/
def runMainOpt (w : World) : RunResult :=
  if w.env "SSKEY" = "" ∨ w.env "SSSECRET" = "" then
    noRun "Please set the SSKEY and SSSECRET environment variables."
  else
    match parseDate w.startFlag, parseDate w.endFlag with
    | none, _ => noRun "Error parsing start date:"
    | some _, none => noRun "Error parsing end date:"
    | some sd, some ed =>
        let url1 := buildURL sd ed limit 1
        match w.fetch url1 with
        | .error _ => ⟨[url1], none, none, [], "Error making API request:"⟩
        | .ok resp0 =>
            let st1 : LoopState :=
              ⟨if w.rawCreateOk 1 then some (saveRecordsRows resp0.orders) else none,
               processOrders resp0.orders []⟩
            let ps := pageListFrom2 resp0.pages
            let reqs := url1 :: requestTrace w sd ed ps
            match runPages w sd ed ps st1 with
            | .error (_, st) =>
                ⟨reqs, st.rawCSV, none, st.stateResults, "Error making API request:"⟩
            | .ok st =>
                if w.aggCreateOk then
                  ⟨reqs, st.rawCSV, some (saveToCSVRows st.stateResults), st.stateResults,
                   "State results saved to state_results.csv"⟩
                else
                  ⟨reqs, st.rawCSV, none, st.stateResults, "Error saving state results to CSV:"⟩

lemma pageList_eq_cons (n : Int) (h : 1 ≤ n) : pageList n = 1 :: pageListFrom2 n := by
  have hn : n.toNat = (n.toNat - 1) + 1 := by omega
  unfold pageList pageListFrom2
  rw [hn, List.range_succ_eq_map, List.map_cons, List.map_map]
  congr 1

/-- A world whose first response reports zero pages while carrying an order. -/
def wPagesZero : World :=
  { env := fun _ => "key"
    startFlag := "2024-01-02"
    endFlag := "2024-01-03"
    fetch := fun url =>
      if url = buildURL dStart dEnd limit 1 then .ok ⟨[oCA1], 1, 1, 0⟩
      else .error "not found"
    rawCreateOk := fun _ => true
    aggCreateOk := true }

/-- C8 counterexample: when the first response reports zero pages, the
original driver processes nothing and never creates the raw file, while the
spec-described optimized scheme writes page-1 rows and aggregates them — the
two schemes differ. -/
theorem first_page_reuse_not_equivalent :
    (runMain wPagesZero).rawCSV = none ∧
    (runMainOpt wPagesZero).rawCSV ≠ none ∧
    (runMain wPagesZero).stateResults = [] ∧
    (runMainOpt wPagesZero).stateResults ≠ [] := by
  refine ⟨?_, ?_, ?_, ?_⟩ <;> decide

/-- C8 amended: provided the first response reports at least one page, the
original driver (re-fetching page 1 inside the loop) and the optimized
scheme (reusing page-1 data and looping from page 2) produce the same raw
CSV, aggregate CSV, state mapping and terminal log — only the request trace
differs by the one redundant page-1 request. -/
theorem first_page_reuse_equivalent (w : World) (sd ed : GoDate) (resp0 : OrderResponse)
    (henv : ¬(w.env "SSKEY" = "" ∨ w.env "SSSECRET" = ""))
    (hsd : parseDate w.startFlag = some sd)
    (hed : parseDate w.endFlag = some ed)
    (h1 : w.fetch (buildURL sd ed limit 1) = .ok resp0)
    (hp : 1 ≤ resp0.pages) :
    (runMain w).stateResults = (runMainOpt w).stateResults ∧
    (runMain w).rawCSV = (runMainOpt w).rawCSV ∧
    (runMain w).aggCSV = (runMainOpt w).aggCSV ∧
    (runMain w).finalLog = (runMainOpt w).finalLog := by
  have hsplit := pageList_eq_cons resp0.pages hp
  have hstep : runPages w sd ed (pageList resp0.pages) ⟨none, []⟩
      = runPages w sd ed (pageListFrom2 resp0.pages)
          ⟨if w.rawCreateOk 1 then some (saveRecordsRows resp0.orders) else none,
           processOrders resp0.orders []⟩ := by
    rw [hsplit]
    simp [runPages, h1]
  unfold runMain runMainOpt
  rw [if_neg henv, if_neg henv, hsd, hed]
  simp only [h1, hstep]
  cases hr : runPages w sd ed (pageListFrom2 resp0.pages)
      ⟨if w.rawCreateOk 1 then some (saveRecordsRows resp0.orders) else none,
       processOrders resp0.orders []⟩ with
  | error es =>
      obtain ⟨es1, es2⟩ := es
      exact ⟨rfl, rfl, rfl, rfl⟩
  | ok st =>
      cases hag : w.aggCreateOk <;> simp

theorem first_page_reuse_equivalent_witness :
    (1 ≤ respPage1.pages) ∧
    ((runMain wTwoPages).stateResults = (runMainOpt wTwoPages).stateResults ∧
     (runMain wTwoPages).rawCSV = (runMainOpt wTwoPages).rawCSV ∧
     (runMain wTwoPages).aggCSV = (runMainOpt wTwoPages).aggCSV ∧
     (runMain wTwoPages).finalLog = (runMainOpt wTwoPages).finalLog) :=
  ⟨by decide,
   first_page_reuse_equivalent wTwoPages dStart dEnd respPage1 (by decide) (by decide) (by decide)
     rfl (by decide)⟩

/-- C7: the aggregate CSV starts with the header
State, NumOrders, TotalPaid, TotalTaxPaid, carries exactly one data row per
state key with the count rendered as a plain integer and every money value
rendered with exactly two characters after the decimal point, and for an
empty mapping consists of the header row alone. -/
theorem aggregate_csv_format (m : StateResults) :
    (saveToCSVRows m).length = m.length + 1 ∧
    (saveToCSVRows m).head? = some ["State", "NumOrders", "TotalPaid", "TotalTaxPaid"] ∧
    (saveToCSVRows m).tail = m.map (fun p =>
      [p.1, toString p.2.numOrders, format2 p.2.totalPaid, format2 p.2.totalTaxPaid]) ∧
    (∀ q : ℚ, ∃ pre last2 : String, format2 q = pre ++ "." ++ last2 ∧
      last2.length = 2 ∧ '.' ∉ last2.data) ∧
    (m = [] → saveToCSVRows m = [["State", "NumOrders", "TotalPaid", "TotalTaxPaid"]]) := by
  have hd : ∀ n : Nat, digitChar n ≠ '.' := by
    intro n
    have hall : ∀ j, j < 10 → Char.ofNat (48 + j) ≠ '.' := by decide
    exact hall (n % 10) (Nat.mod_lt n (by norm_num))
  refine ⟨by simp [saveToCSVRows], rfl, rfl, ?_, ?_⟩
  · intro q
    refine ⟨(if round (q * 100) < 0 then "-" else "")
        ++ toString ((round (q * 100)).natAbs / 100),
      twoDigits ((round (q * 100)).natAbs % 100), rfl, rfl, ?_⟩
    show '.' ∉ [digitChar ((round (q * 100)).natAbs % 100 / 10),
                digitChar ((round (q * 100)).natAbs % 100)]
    simp only [List.mem_cons, List.not_mem_nil, or_false]
    push_neg
    exact ⟨Ne.symm (hd _), Ne.symm (hd _)⟩
  · intro hm
    subst hm
    rfl

theorem aggregate_csv_format_witness :
    (saveToCSVRows ([] : StateResults)).length = ([] : StateResults).length + 1 ∧
    (saveToCSVRows ([] : StateResults)).head?
      = some ["State", "NumOrders", "TotalPaid", "TotalTaxPaid"] ∧
    (saveToCSVRows ([] : StateResults)).tail = ([] : StateResults).map (fun p =>
      [p.1, toString p.2.numOrders, format2 p.2.totalPaid, format2 p.2.totalTaxPaid]) ∧
    (∀ q : ℚ, ∃ pre last2 : String, format2 q = pre ++ "." ++ last2 ∧
      last2.length = 2 ∧ '.' ∉ last2.data) ∧
    (([] : StateResults) = [] → saveToCSVRows ([] : StateResults)
      = [["State", "NumOrders", "TotalPaid", "TotalTaxPaid"]]) :=
  aggregate_csv_format []

/-- C10: the orderDateStart and orderDateEnd query values are the Go default
rendering of the parsed time values — `YYYY-MM-DD 00:00:00 +0000 UTC`, a
string that contains spaces (so the URL is not URL-encoded) and differs from
the ten-character YYYY-MM-DD flag string the user supplied. -/
theorem url_uses_default_time_rendering (s : String) (d : GoDate)
    (hs : parseDate s = some d) (ed : GoDate) (n p : Int) :
    (∃ rest : String, buildURL d ed n p
      = "https://ssapi.shipstation.com/orders?orderDateStart=" ++ goTimeString d ++ rest) ∧
    goTimeString d = dateISO d ++ " 00:00:00 +0000 UTC" ∧
    ' ' ∈ (goTimeString d).data ∧
    goTimeString d ≠ s := by
  have hlen10 : s.data.length = 10 := by
    by_cases hL : s.data.length = 10
    · exact hL
    · rw [parseDate, if_neg hL] at hs
      cases hs
  refine ⟨?_, rfl, ?_, ?_⟩
  · refine ⟨"&orderDateEnd=" ++ goTimeString ed ++ "&pageSize=" ++ toString n
        ++ "&page=" ++ toString p, ?_⟩
    apply String.ext
    simp [buildURL, String.data_append]
  · rw [goTimeString, String.data_append]
    refine List.mem_append.mpr (Or.inr ?_)
    decide
  · intro h
    have h29 : (goTimeString d).data.length = 29 := by
      simp [goTimeString, dateISO, pad4, pad2, String.data_append]
    rw [h, hlen10] at h29
    norm_num at h29

theorem url_uses_default_time_rendering_witness :
    (parseDate "2024-01-02" = some ⟨2024, 1, 2⟩) ∧
    goTimeString ⟨2024, 1, 2⟩ = "2024-01-02 00:00:00 +0000 UTC" ∧
    ((∃ rest : String, buildURL ⟨2024, 1, 2⟩ dEnd 100 7
        = "https://ssapi.shipstation.com/orders?orderDateStart="
            ++ goTimeString ⟨2024, 1, 2⟩ ++ rest) ∧
     goTimeString ⟨2024, 1, 2⟩ = dateISO ⟨2024, 1, 2⟩ ++ " 00:00:00 +0000 UTC" ∧
     ' ' ∈ (goTimeString ⟨2024, 1, 2⟩).data ∧
     goTimeString ⟨2024, 1, 2⟩ ≠ "2024-01-02") :=
  ⟨by decide, by decide,
   url_uses_default_time_rendering "2024-01-02" ⟨2024, 1, 2⟩ (by decide) dEnd 100 7⟩

end Taxbot
